import Mathlib

/-!
# Verification of the jaxip geometry / descriptor pipeline

Shallow embedding of the periodic-box, distance, neighbor-list and
atomic-symmetry-function (ASF) code of the repository, together with
theorems settling the specification claims.

Modelling conventions:
* Machine floating-point numbers are modelled by exact rationals `ℚ`.
* The (irrational) float square root used by `torch.linalg.vector_norm`
  (and its jax counterpart) is an explicit parameter `sqrtFn : ℚ → ℚ` of
  every definition that consumes a Euclidean norm; theorems assume only
  the order-theoretic properties of a square root that they need, and
  witnesses instantiate `sqrtFn` with a concrete function satisfying them.
* A 3-vector is a triple of rationals, a 3x3 lattice matrix is a triple
  of row vectors.
* Fallible code paths (a raised Python exception) are modelled with
  `Except` / `Option`.
-/

/-- A Cartesian 3-vector of rationals (one row of a position tensor). -/
abbrev Vec3 : Type := ℚ × ℚ × ℚ

/-- A 3x3 lattice matrix, stored as its three row vectors. -/
abbrev Mat3 : Type := Vec3 × Vec3 × Vec3

/-- Componentwise difference of two 3-vectors (`x[i] - x[j]`). -/
def vsub (a b : Vec3) : Vec3 :=
  (a.1 - b.1, a.2.1 - b.2.1, a.2.2 - b.2.2)

/-- Componentwise sum of two 3-vectors (used to translate positions). -/
def vadd (a b : Vec3) : Vec3 :=
  (a.1 + b.1, a.2.1 + b.2.1, a.2.2 + b.2.2)

/-- Squared Euclidean norm of a 3-vector; `torch.linalg.vector_norm(dx)`
is the square root of this quantity. -/
def normSq (v : Vec3) : ℚ :=
  v.1 * v.1 + v.2.1 * v.2.1 + v.2.2 * v.2.2

/-- Inner product of two 3-vectors (`torch.inner(Rij, Rik)`). -/
def inner3 (a b : Vec3) : ℚ :=
  a.1 * b.1 + a.2.1 * b.2.1 + a.2.2 * b.2.2

/-- The diagonal of a lattice matrix (`lattice.diagonal()` in
`torchip/structure/box.py`). -/
def matDiag (m : Mat3) : Vec3 :=
  (m.1.1, m.2.1.2.1, m.2.2.2.2)

/-- One Cartesian axis of `Box._apply_pbc` (`torchip/structure/box.py`),
with `l` the diagonal lattice length along that axis.  The two `where`s
are sequential, so the second test is applied to the output of the
first.  First `where`: `dx = torch.where(dx > 0.5*l, dx - l, dx)`. -/
def applyPbcWhereHigh (dx l : ℚ) : ℚ :=
  if dx > l / 2 then dx - l else dx

/-- The second `torch.where` of `Box._apply_pbc`:
`dx = torch.where(dx < -0.5*l, dx + l, dx)`. -/
def applyPbcWhereLow (dx l : ℚ) : ℚ :=
  if dx < -(l / 2) then dx + l else dx

/-- Both `where`s in sequence, as in the source. -/
def applyPbcAxis (dx l : ℚ) : ℚ :=
  applyPbcWhereLow (applyPbcWhereHigh dx l) l

/-- `Box._apply_pbc(dx, lattice)`: the minimum-image correction applied
componentwise against the *diagonal* entries of the lattice matrix only
(the source reads `l = lattice.diagonal()`). -/
def applyPbc (dx : Vec3) (lattice : Mat3) : Vec3 :=
  (applyPbcAxis dx.1 (matDiag lattice).1,
   applyPbcAxis dx.2.1 (matDiag lattice).2.1,
   applyPbcAxis dx.2.2 (matDiag lattice).2.2)

/-- PBC correction for an optional lattice: `Structure._calculate_distance`
applies `Box._apply_pbc` only when a lattice is present. -/
def applyPbcOpt (dx : Vec3) (lattice : Option Mat3) : Vec3 :=
  match lattice with
  | none => dx
  | some m => applyPbc dx m

/-- An atomic structure snapshot: per-atom positions, per-atom integer
atom types (element symbols already mapped through
`element_map.element_to_atype`), and an optional 3x3 lattice. -/
structure QStructure (n : ℕ) where
  pos : Fin n → Vec3
  atype : Fin n → ℕ
  lattice : Option Mat3

/-- The PBC-corrected position difference `pos[i] - pos[j]` computed by
`Structure._calculate_distance` (`torchip/structure/structure.py`):
`dx = pos[aid] - x` followed by `Box._apply_pbc` when a lattice exists. -/
def diffVec {n : ℕ} (s : QStructure n) (i j : Fin n) : Vec3 :=
  applyPbcOpt (vsub (s.pos i) (s.pos j)) s.lattice

/-- Squared distance between atoms `i` and `j`; the source computes
`dis = torch.linalg.vector_norm(dx, dim=1)`, i.e. the square root of
this value. -/
def distSq {n : ℕ} (s : QStructure n) (i j : Fin n) : ℚ :=
  normSq (diffVec s i j)

/-- The distance `‖dx‖` as computed by the source, with the float square
root abstracted as `sqrtFn`. -/
def distNorm {n : ℕ} (sqrtFn : ℚ → ℚ) (s : QStructure n) (i j : Fin n) : ℚ :=
  sqrtFn (distSq s i j)

/-- `_calculate_cutoff_masks_per_atom` (`jaxip/atoms/neighbor.py`):
`(rij <= r_cutoff) & (rij != 0.0)` for one distance entry. -/
def calculateCutoffMasksPerAtom (rij rCutoff : ℚ) : Bool :=
  decide (rij ≤ rCutoff) && !(decide (rij = 0))

/-- `_calculate_cutoff_masks` (`jaxip/atoms/neighbor.py`): the boolean
neighbor mask of every ordered atom pair, obtained by computing all
pairwise PBC distances and mapping `_calculate_cutoff_masks_per_atom`
over them.  The pairwise distance kernel `_calculate_distances`
(`jaxip/atoms/_structure.py`) is not part of the extracted sources;
its body is the same computation as `Structure._calculate_distance`
embedded above (difference, minimum image, Euclidean norm), which is
what `dist` models. -/
def calculateCutoffMasks {n : ℕ} (sqrtFn : ℚ → ℚ) (s : QStructure n)
    (rCutoff : ℚ) (i j : Fin n) : Bool :=
  calculateCutoffMasksPerAtom (distNorm sqrtFn s i j) rCutoff

/- ### Basic facts about the embedded geometry kernels -/

theorem normSq_nonneg (v : Vec3) : 0 ≤ normSq v := by
  unfold normSq
  nlinarith [mul_self_nonneg v.1, mul_self_nonneg v.2.1, mul_self_nonneg v.2.2]

theorem distSq_nonneg {n : ℕ} (s : QStructure n) (i j : Fin n) :
    0 ≤ distSq s i j := normSq_nonneg _

/-- The sequential pair of `torch.where`s in `Box._apply_pbc` collapses
to a three-way case split: when the first shift fires, the second test
can never fire on its result. -/
theorem applyPbcAxis_cases (dx l : ℚ) :
    applyPbcAxis dx l =
      if l / 2 < dx then dx - l else if dx < -(l / 2) then dx + l else dx := by
  unfold applyPbcAxis applyPbcWhereLow applyPbcWhereHigh
  split_ifs <;> linarith

/-- `applyPbcAxis` shifts its input by `-l`, `0` or `+l`. -/
theorem applyPbcAxis_shift (dx l : ℚ) :
    applyPbcAxis dx l = dx - l ∨ applyPbcAxis dx l = dx ∨
      applyPbcAxis dx l = dx + l := by
  rw [applyPbcAxis_cases]
  split_ifs <;> tauto

/-- On zero input the minimum-image correction is the identity, provided
the axis length is nonnegative. -/
theorem applyPbcAxis_zero {l : ℚ} (hl : 0 ≤ l) : applyPbcAxis 0 l = 0 := by
  rw [applyPbcAxis_cases]
  split_ifs <;> linarith

/-- The minimum-image correction is antisymmetric for nonnegative axis
lengths: `applyPbcAxis (-dx) l = -(applyPbcAxis dx l)`. -/
theorem applyPbcAxis_neg {l : ℚ} (hl : 0 ≤ l) (dx : ℚ) :
    applyPbcAxis (-dx) l = -applyPbcAxis dx l := by
  rw [applyPbcAxis_cases, applyPbcAxis_cases]
  split_ifs <;> linarith

/-- A structure whose lattice is either absent or has nonnegative
diagonal lengths (every physical simulation box). -/
def latticeNonneg {n : ℕ} (s : QStructure n) : Prop :=
  ∀ m, s.lattice = some m →
    0 ≤ (matDiag m).1 ∧ 0 ≤ (matDiag m).2.1 ∧ 0 ≤ (matDiag m).2.2

/-- The PBC-corrected difference vector is antisymmetric in the two
atoms. -/
theorem diffVec_symm {n : ℕ} (s : QStructure n) (hl : latticeNonneg s)
    (i j : Fin n) :
    diffVec s i j =
      (-(diffVec s j i).1, -(diffVec s j i).2.1, -(diffVec s j i).2.2) := by
  unfold diffVec applyPbcOpt
  cases hs : s.lattice with
  | none =>
      simp only [vsub, Prod.mk.injEq]
      exact ⟨by ring, by ring, by ring⟩
  | some m =>
      obtain ⟨h1, h2, h3⟩ := hl m hs
      simp only [applyPbc, vsub, Prod.mk.injEq]
      have e1 : (s.pos i).1 - (s.pos j).1 = -((s.pos j).1 - (s.pos i).1) := by
        ring
      have e2 : (s.pos i).2.1 - (s.pos j).2.1
          = -((s.pos j).2.1 - (s.pos i).2.1) := by ring
      have e3 : (s.pos i).2.2 - (s.pos j).2.2
          = -((s.pos j).2.2 - (s.pos i).2.2) := by ring
      rw [e1, e2, e3, applyPbcAxis_neg h1, applyPbcAxis_neg h2,
        applyPbcAxis_neg h3]
      exact ⟨rfl, rfl, rfl⟩

/-- The squared PBC distance is symmetric. -/
theorem distSq_symm {n : ℕ} (s : QStructure n) (hl : latticeNonneg s)
    (i j : Fin n) : distSq s i j = distSq s j i := by
  unfold distSq
  rw [diffVec_symm s hl i j]
  unfold normSq
  ring

/-- The self squared distance is zero (nonnegative lattice lengths). -/
theorem distSq_self {n : ℕ} (s : QStructure n) (hl : latticeNonneg s)
    (i : Fin n) : distSq s i i = 0 := by
  unfold distSq diffVec applyPbcOpt
  cases hs : s.lattice with
  | none =>
      simp only [vsub, normSq]
      ring
  | some m =>
      obtain ⟨h1, h2, h3⟩ := hl m hs
      simp only [applyPbc, vsub, sub_self]
      rw [applyPbcAxis_zero h1, applyPbcAxis_zero h2, applyPbcAxis_zero h3]
      simp [normSq]

/- ### Claim C3: the minimum-image operation, per Cartesian axis -/

/-- **C3.** For every position difference `dx` and every lattice matrix
with nonnegative axis lengths, the minimum-image operation
`Box._apply_pbc` returns, on each Cartesian axis `a` with diagonal
length `L[a]`: `dx[a] - L[a]` when `dx[a] > 0.5*L[a]`; `dx[a] + L[a]`
when `dx[a] < -0.5*L[a]`; and `dx[a]` unchanged otherwise.  The vector
operation is the identical scalar kernel `applyPbcAxis` applied on each
axis against the diagonal lattice entry, so the case analysis is stated
for an arbitrary scalar axis value. -/
theorem C3_apply_pbc_minimum_image (dx : Vec3) (lattice : Mat3) :
    ((applyPbc dx lattice).1 = applyPbcAxis dx.1 (matDiag lattice).1 ∧
     (applyPbc dx lattice).2.1 = applyPbcAxis dx.2.1 (matDiag lattice).2.1 ∧
     (applyPbc dx lattice).2.2 = applyPbcAxis dx.2.2 (matDiag lattice).2.2) ∧
    (∀ d l : ℚ, 0 ≤ l →
      (l / 2 < d → applyPbcAxis d l = d - l) ∧
      (d < -(l / 2) → applyPbcAxis d l = d + l) ∧
      (-(l / 2) ≤ d → d ≤ l / 2 → applyPbcAxis d l = d)) := by
  refine ⟨⟨rfl, rfl, rfl⟩, fun d l hl => ⟨?_, ?_, ?_⟩⟩
  · intro h
    rw [applyPbcAxis_cases, if_pos h]
  · intro h
    rw [applyPbcAxis_cases, if_neg (by linarith), if_pos h]
  · intro h1 h2
    rw [applyPbcAxis_cases, if_neg (by linarith), if_neg (by linarith)]

/-- Witness for C3: evaluating the three cases at concrete inputs
(`L = 6`, `dx = 4, -4, 1`). -/
theorem C3_witness :
    applyPbcAxis 4 6 = -2 ∧ applyPbcAxis (-4) 6 = 2 ∧
      applyPbcAxis 1 6 = 1 := by
  obtain ⟨-, h⟩ := C3_apply_pbc_minimum_image (0, 0, 0) ((6, 0, 0), (0, 6, 0), (0, 0, 6))
  refine ⟨?_, ?_, ?_⟩
  · have := (h 4 6 (by norm_num)).1 (by norm_num)
    linarith
  · have := (h (-4) 6 (by norm_num)).2.1 (by norm_num)
    linarith
  · exact (h 1 6 (by norm_num)).2.2 (by norm_num) (by norm_num)

/-- A concrete two-atom periodic structure used by witnesses: atom 0 at
the origin, atom 1 at `(3,0,0)`, cubic box of side 10. -/
def exStruct2 : QStructure 2 where
  pos := fun p => if p = 0 then (0, 0, 0) else (3, 0, 0)
  atype := fun _ => 0
  lattice := some ((10, 0, 0), (0, 10, 0), (0, 0, 10))

theorem exStruct2_latticeNonneg : latticeNonneg exStruct2 := by
  intro m hm
  simp only [exStruct2, Option.some.injEq] at hm
  subst hm
  exact ⟨by norm_num [matDiag], by norm_num [matDiag], by norm_num [matDiag]⟩

/- ### Claim C1: cutoff-mask neighbor membership -/

/-- **C1.** For every structure (nonnegative lattice lengths), every
atom `i`, every atom `j` and every cutoff radius `r`: the computed
neighbor mask `_calculate_cutoff_masks` marks `j` as a neighbor of `i`
exactly when the periodic-minimum-image distance satisfies
`0 < dist(i,j) ≤ r`; in particular the self atom (distance exactly `0`)
is never a neighbor, for any cutoff.  `sqrtFn` is the float square root
of the norm kernel; we only assume it is nonnegative on nonnegative
input and zero at zero. -/
theorem C1_cutoff_mask_iff {n : ℕ} (sqrtFn : ℚ → ℚ) (s : QStructure n)
    (r : ℚ) (i j : Fin n) (hl : latticeNonneg s)
    (hnn : ∀ x : ℚ, 0 ≤ x → 0 ≤ sqrtFn x) (h0 : sqrtFn 0 = 0) :
    (calculateCutoffMasks sqrtFn s r i j = true ↔
      0 < distNorm sqrtFn s i j ∧ distNorm sqrtFn s i j ≤ r) ∧
    calculateCutoffMasks sqrtFn s r i i = false := by
  have hmask : ∀ k : Fin n, calculateCutoffMasks sqrtFn s r i k = true ↔
      distNorm sqrtFn s i k ≤ r ∧ distNorm sqrtFn s i k ≠ 0 := by
    intro k
    unfold calculateCutoffMasks calculateCutoffMasksPerAtom
    simp [decide_eq_true_eq]
  constructor
  · rw [hmask j]
    have hd : 0 ≤ distNorm sqrtFn s i j := hnn _ (distSq_nonneg s i j)
    constructor
    · rintro ⟨hle, hne⟩
      exact ⟨lt_of_le_of_ne hd (Ne.symm hne), hle⟩
    · rintro ⟨hpos, hle⟩
      exact ⟨hle, ne_of_gt hpos⟩
  · rw [Bool.eq_false_iff]
    intro hc
    rw [hmask i] at hc
    apply hc.2
    unfold distNorm
    rw [distSq_self s hl i, h0]

/-- Witness for C1 at a concrete two-atom periodic structure with
`sqrtFn = id` (which satisfies the assumed square-root properties):
atom 1 at distance-squared 9 from atom 0, cutoff 10. -/
theorem C1_witness :
    (calculateCutoffMasks (fun q => q) exStruct2 10 0 1 = true ↔
      0 < distNorm (fun q => q) exStruct2 0 1 ∧
      distNorm (fun q => q) exStruct2 0 1 ≤ 10) ∧
    calculateCutoffMasks (fun q => q) exStruct2 10 0 0 = false :=
  C1_cutoff_mask_iff (fun q => q) exStruct2 10 0 1 exStruct2_latticeNonneg
    (fun _ hx => hx) rfl

/- ### Claim C9: symmetry of the neighbor relation -/

/-- **C9.** The neighbor relation computed by the cutoff-mask neighbor
list is symmetric: for every structure with a (diagonal, nonnegative)
lattice or no lattice at all and every cutoff radius, atom `j` is marked
as a neighbor of atom `i` exactly when atom `i` is marked as a neighbor
of atom `j`, because the minimum-image distance from `i` to `j` equals
the one from `j` to `i`. -/
theorem C9_cutoff_mask_symm {n : ℕ} (sqrtFn : ℚ → ℚ) (s : QStructure n)
    (r : ℚ) (i j : Fin n) (hl : latticeNonneg s) :
    distNorm sqrtFn s i j = distNorm sqrtFn s j i ∧
    calculateCutoffMasks sqrtFn s r i j = calculateCutoffMasks sqrtFn s r j i := by
  have hd : distNorm sqrtFn s i j = distNorm sqrtFn s j i := by
    unfold distNorm
    rw [distSq_symm s hl i j]
  refine ⟨hd, ?_⟩
  unfold calculateCutoffMasks
  rw [hd]

/-- Witness for C9 at the concrete structure of the C1 witness. -/
theorem C9_witness :
    distNorm (fun q => q) exStruct2 0 1 = distNorm (fun q => q) exStruct2 1 0 ∧
    calculateCutoffMasks (fun q => q) exStruct2 10 0 1 =
      calculateCutoffMasks (fun q => q) exStruct2 10 1 0 :=
  C9_cutoff_mask_symm (fun q => q) exStruct2 10 0 1 exStruct2_latticeNonneg

/- ### Claim C5: non-diagonal lattices are silently accepted -/

/-- The only failure mode of `Box.__init__` (`torchip/structure/box.py`):
the `torch.tensor(...).reshape(3, 3)` call raising on malformed input.
No other validation exists in the constructor. -/
inductive BoxError where
  | badShape
deriving DecidableEq

/-- The state held by `Box` after construction: just the (optional)
lattice tensor. -/
structure BoxModel where
  lattice : Option Mat3
deriving DecidableEq

/-- `Box.__init__`: stores the lattice after reshaping it to 3x3.  The
`try/except` around the reshape is the single failure path;  a
well-shaped 3x3 matrix (which the type `Mat3` guarantees) never
triggers it, and the constructor performs no diagonality check. -/
def boxInit (lattice : Option Mat3) : Except BoxError BoxModel :=
  Except.ok { lattice := lattice }

/-- The lattice with its off-diagonal entries zeroed. -/
def diagOnly (m : Mat3) : Mat3 :=
  ((m.1.1, 0, 0), (0, m.2.1.2.1, 0), (0, 0, m.2.2.2.2))

/-- **C5 (counterexample).** The claim "constructing a periodic box or
applying the minimum-image correction with a non-diagonal 3x3 lattice
fails with an UnsupportedGeometryError" is false: at the concrete
non-diagonal lattice `((10,1,0),(2,10,0),(0,0,10))` the constructor
succeeds, and `Box._apply_pbc` returns exactly the value it returns for
the diagonal-only lattice `((10,0,0),(0,10,0),(0,0,10))` — the silent
diagonal approximation the claim denies. -/
theorem C5_counterexample :
    boxInit (some ((10, 1, 0), (2, 10, 0), (0, 0, 10))) =
      Except.ok { lattice := some ((10, 1, 0), (2, 10, 0), (0, 0, 10)) } ∧
    applyPbc (7, 3, 9) ((10, 1, 0), (2, 10, 0), (0, 0, 10)) = (-3, 3, -1) ∧
    applyPbc (7, 3, 9) (diagOnly ((10, 1, 0), (2, 10, 0), (0, 0, 10)))
      = (-3, 3, -1) := by
  refine ⟨rfl, ?_, ?_⟩ <;> {
    simp only [applyPbc, applyPbcAxis_cases, matDiag, diagOnly, Prod.mk.injEq]
    norm_num
  }

/-- **C5 (amended).** Construction with any well-shaped lattice (also a
non-diagonal one) succeeds — no UnsupportedGeometryError exists in the
source — and the minimum-image correction depends only on the diagonal
entries of the lattice: it silently approximates any non-diagonal
lattice by its diagonal. -/
theorem C5_amended_silent_diagonal (lattice : Mat3) (dx : Vec3) :
    (∃ b : BoxModel, boxInit (some lattice) = Except.ok b ∧
      b.lattice = some lattice) ∧
    applyPbc dx lattice = applyPbc dx (diagOnly lattice) := by
  refine ⟨⟨{ lattice := some lattice }, rfl, rfl⟩, ?_⟩
  unfold applyPbc diagOnly matDiag
  rfl

/- ### Claim C7: repeated neighbor updates recompute the masks -/

/-- The observable branch taken by `Neighbor.update`
(`jaxip/atoms/neighbor.py`): the method either logs
"Skipped updating the neighbor list" and returns immediately (cutoff
radius is `None`), or logs "Updating neighbor list" and recomputes the
masks.  There is no staleness check: whenever a cutoff radius is set the
masks are recomputed. -/
inductive NeighborLog where
  | skipped
  | updating
deriving DecidableEq

/-- The mutable state of `Neighbor` (`jaxip/atoms/neighbor.py`): a
cutoff radius and the (initially absent) boolean masks buffer. -/
structure NeighborState (n : ℕ) where
  rCutoff : Option ℚ
  masks : Option (Fin n → Fin n → Bool)

/-- `Neighbor.update(structure)`: skip when no cutoff radius is set,
otherwise recompute the masks via `_calculate_cutoff_masks`
unconditionally.  The second component records which branch (and hence
which log message) the call took. -/
def neighborUpdate {n : ℕ} (sqrtFn : ℚ → ℚ) (s : QStructure n)
    (nb : NeighborState n) : NeighborState n × NeighborLog :=
  match nb.rCutoff with
  | none => (nb, NeighborLog.skipped)
  | some rc =>
      ({ nb with masks := some (fun i j => calculateCutoffMasks sqrtFn s rc i j) },
        NeighborLog.updating)

/-- **C7 (counterexample).** The claim "the second and later calls do
not rebuild the neighbor masks" is false: on the concrete structure
`exStruct2` with cutoff 10, the second `Neighbor.update` call takes the
recompute branch (logging "Updating neighbor list") again, exactly as
the first call did. -/
theorem C7_counterexample :
    (neighborUpdate (fun q => q) exStruct2
      (neighborUpdate (fun q => q) exStruct2
        { rCutoff := some 10, masks := none }).1).2 =
      NeighborLog.updating := rfl

/-- **C7 (amended).** Repeated `Neighbor.update` calls on a structure
with unchanged cutoff radius and positions do recompute the masks (the
update branch is taken on every call whenever a cutoff is set), but the
recomputation is idempotent: the neighbor state after the second call
equals the state after the first, so repeated descriptor evaluations
read identical masks and return the same feature matrix. -/
theorem C7_amended_update_idempotent {n : ℕ} (sqrtFn : ℚ → ℚ)
    (s : QStructure n) (nb : NeighborState n) :
    (neighborUpdate sqrtFn s (neighborUpdate sqrtFn s nb).1).1 =
      (neighborUpdate sqrtFn s nb).1 ∧
    (nb.rCutoff ≠ none →
      (neighborUpdate sqrtFn s (neighborUpdate sqrtFn s nb).1).2 =
        NeighborLog.updating) := by
  obtain ⟨rc, mk⟩ := nb
  cases rc with
  | none => exact ⟨rfl, fun hc => absurd rfl hc⟩
  | some r => exact ⟨rfl, fun _ => rfl⟩

/-- Witness for the amended C7 at the concrete structure `exStruct2`. -/
theorem C7_witness :
    (neighborUpdate (fun q => q) exStruct2
      (neighborUpdate (fun q => q) exStruct2
        { rCutoff := some 10, masks := none }).1).1 =
      (neighborUpdate (fun q => q) exStruct2
        { rCutoff := some 10, masks := none }).1 ∧
    ((({ rCutoff := some 10, masks := none } : NeighborState 2)).rCutoff ≠ none →
      (neighborUpdate (fun q => q) exStruct2
        (neighborUpdate (fun q => q) exStruct2
          { rCutoff := some 10, masks := none }).1).2 =
        NeighborLog.updating) :=
  C7_amended_update_idempotent (fun q => q) exStruct2
    { rCutoff := some 10, masks := none }

/- ### The ASF descriptor engine (torchip/descriptors/asf/asf.py) -/

/-- A registered radial symmetry-function term: its scalar kernel, its
cutoff radius, and the neighbor atom type it is assigned to (the element
symbol already mapped through `emap`).  The kernel body (G1/G2) lives in
`radial.py`, outside the extracted sources; it stays abstract here. -/
structure RadialTerm where
  kernel : ℚ → ℚ
  rCutoff : ℚ
  elemJ : ℕ

/-- A registered angular symmetry-function term: kernel
`(rij, rik, rjk, cost) → value`, cutoff radius and the two neighbor atom
types.  The kernel body (G3/G9) lives in `angular.py`, outside the
extracted sources; it stays abstract here. -/
structure AngularTerm where
  kernel : ℚ → ℚ → ℚ → ℚ → ℚ
  rCutoff : ℚ
  elemJ : ℕ
  elemK : ℕ

/-- The `AtomicSymmetryFunction` registry: central element (as atom
type) plus the ordered radial and angular term lists. -/
structure AsfModel where
  element : ℕ
  radial : List RadialTerm
  angular : List AngularTerm

/-- The per-atom neighbor index list consumed by `_compute`
(`ni_ = ni[aid, :nn[aid]]`).  The torchip `Neighbor` class itself is not
among the extracted sources; per the spec (§4.4) and the jaxip mask
code, the indices are exactly the atoms whose cutoff mask
`_calculate_cutoff_masks` is set, listed in ascending index order. -/
def neighborIndices {n : ℕ} (sqrtFn : ℚ → ℚ) (s : QStructure n)
    (rStruct : ℚ) (i : Fin n) : List (Fin n) :=
  (List.finRange n).filter (fun j => calculateCutoffMasks sqrtFn s rStruct i j)

/-- One radial term of `AtomicSymmetryFunction._compute`: select the
neighbors inside the term cutoff with matching atom type
(`ni_rc_at_`), then sum the kernel over their distances. -/
def radialSumTerm {n : ℕ} (sqrtFn : ℚ → ℚ) (s : QStructure n)
    (t : RadialTerm) (i : Fin n) (ni : List (Fin n)) : ℚ :=
  ((ni.filter (fun j =>
      decide (distNorm sqrtFn s i j ≤ t.rCutoff) &&
      decide (s.atype j = t.elemJ))).map
    (fun j => t.kernel (distNorm sqrtFn s i j))).sum

/-- One angular term of `AtomicSymmetryFunction._compute` (the `k > j`
convention): build the cutoff-and-type filtered local lists
`ni_rc_at_j_` and `ni_rc_at_k_`; for each `j` restrict `k` to global
neighbor indices `> j` when the two neighbor elements coincide and to
`k ≠ j` otherwise; accumulate
`kernel(rij, rik, rjk, inner(Rij, Rik)/(rij*rik))`.
`rjk` goes through `Structure._calculate_distance(pos, ni_j_,
neighbors=ni_k_)`, i.e. the PBC-corrected distance between atoms `j` and
`k`. -/
def torchipAngularSumTerm {n : ℕ} (sqrtFn : ℚ → ℚ) (s : QStructure n)
    (t : AngularTerm) (i : Fin n) (ni : List (Fin n)) : ℚ :=
  ((ni.filter (fun j =>
      decide (distNorm sqrtFn s i j ≤ t.rCutoff) &&
      decide (s.atype j = t.elemJ))).map
    (fun j =>
      (((if t.elemJ = t.elemK then
          (ni.filter (fun c =>
            decide (distNorm sqrtFn s i c ≤ t.rCutoff) &&
            decide (s.atype c = t.elemK))).filter (fun k => decide (j < k))
        else
          (ni.filter (fun c =>
            decide (distNorm sqrtFn s i c ≤ t.rCutoff) &&
            decide (s.atype c = t.elemK))).filter (fun k => decide (k ≠ j)))).map
        (fun k =>
          t.kernel (distNorm sqrtFn s i j) (distNorm sqrtFn s i k)
            (distNorm sqrtFn s j k)
            (inner3 (diffVec s i j) (diffVec s i k) /
              (distNorm sqrtFn s i j * distNorm sqrtFn s i k)))).sum)).sum

/-- The failure raised by `AtomicSymmetryFunction._compute` when the
requested atom id's type differs from the engine's central element
(`logger.error(..., exception=ValueError)`). -/
inductive AsfError where
  | elementMismatch (aid : ℕ)
deriving DecidableEq

/-- `AtomicSymmetryFunction._compute`: check the central element of the
requested atom id, then emit the radial columns followed by the angular
columns (fixed registration order). -/
def asfCompute {n : ℕ} (asf : AsfModel) (sqrtFn : ℚ → ℚ)
    (s : QStructure n) (rStruct : ℚ) (aid : Fin n) :
    Except AsfError (List ℚ) :=
  if s.atype aid = asf.element then
    Except.ok
      ((asf.radial.map (fun t =>
          radialSumTerm sqrtFn s t aid (neighborIndices sqrtFn s rStruct aid))) ++
       (asf.angular.map (fun t =>
          torchipAngularSumTerm sqrtFn s t aid
            (neighborIndices sqrtFn s rStruct aid))))
  else Except.error (AsfError.elementMismatch aid.val)

/-- `AtomicSymmetryFunction.__call__` over a list of atom ids:
`results = [self.compute(structure, aid_) for aid_ in aids_]` followed
by `torch.stack`.  The list comprehension evaluates the atom ids in
order and the first raised exception aborts the whole call, so no
feature matrix is produced at all on a mismatch. -/
def asfCall {n : ℕ} (asf : AsfModel) (sqrtFn : ℚ → ℚ) (s : QStructure n)
    (rStruct : ℚ) : List (Fin n) → Except AsfError (List (List ℚ))
  | [] => Except.ok []
  | aid :: rest =>
      match asfCompute asf sqrtFn s rStruct aid with
      | Except.error e => Except.error e
      | Except.ok row =>
          match asfCall asf sqrtFn s rStruct rest with
          | Except.error e => Except.error e
          | Except.ok rows => Except.ok (row :: rows)

/-- `AtomicSymmetryFunction.r_cutoff`: the maximum cutoff over all
registered terms, `max([cfn[0].r_cutoff for cfn in chain(radial,
angular)])`.  Python's `max` raises `ValueError` on an empty sequence;
this failure is modelled by `none`. -/
def asfRCutoff (asf : AsfModel) : Option ℚ :=
  ((asf.radial.map (fun t => t.rCutoff)) ++
    (asf.angular.map (fun t => t.rCutoff))).max?

/- ### Claim C6: element mismatch aborts the whole call -/

/-- **C6.** For every `evaluate` call with a list of atom ids, if any
requested atom id has a species different from the engine's central
element, the call fails with the element-mismatch error and returns no
partial results: the result is `Except.error`, which carries no feature
row for any atom id of the call. -/
theorem C6_element_mismatch_aborts {n : ℕ} (asf : AsfModel)
    (sqrtFn : ℚ → ℚ) (s : QStructure n) (rStruct : ℚ)
    (aids : List (Fin n)) (h : ∃ a ∈ aids, s.atype a ≠ asf.element) :
    ∃ b : Fin n, s.atype b ≠ asf.element ∧
      asfCall asf sqrtFn s rStruct aids =
        Except.error (AsfError.elementMismatch b.val) := by
  induction aids with
  | nil => simp at h
  | cons a rest ih =>
      by_cases ha : s.atype a = asf.element
      · have hrest : ∃ b ∈ rest, s.atype b ≠ asf.element := by
          obtain ⟨b, hb, hbne⟩ := h
          rcases List.mem_cons.mp hb with hba | hbr
          · exact absurd (hba ▸ ha) hbne
          · exact ⟨b, hbr, hbne⟩
        obtain ⟨b, hbne, hbcall⟩ := ih hrest
        refine ⟨b, hbne, ?_⟩
        unfold asfCall
        rw [asfCompute, if_pos ha, hbcall]
      · refine ⟨a, ha, ?_⟩
        unfold asfCall
        rw [asfCompute, if_neg ha]

/-- Witness for C6: a two-atom structure in which atom 1 has type 0
while the engine's central element is type 7. -/
theorem C6_witness :
    ∃ b : Fin 2, exStruct2.atype b ≠ (7 : ℕ) ∧
      asfCall { element := 7, radial := [], angular := [] } (fun q => q)
          exStruct2 10 [0, 1] =
        Except.error (AsfError.elementMismatch b.val) :=
  C6_element_mismatch_aborts { element := 7, radial := [], angular := [] }
    (fun q => q) exStruct2 10 [0, 1] ⟨0, by simp, by decide⟩

/- ### Claim C10: empty engine — r_cutoff fails, evaluate succeeds -/

/-- **C10.** For a descriptor engine with no registered
symmetry-function terms, the aggregate cutoff-radius property is the
maximum of an empty sequence and fails (Python `max([])` raises
`ValueError`; here `none`), yet evaluating the same empty engine over
atoms of the central element succeeds and returns one empty feature
vector per requested atom id (the source merely logs a "no symmetry
function was found" warning first). -/
theorem C10_empty_engine {n : ℕ} (asf : AsfModel) (sqrtFn : ℚ → ℚ)
    (s : QStructure n) (rStruct : ℚ) (aids : List (Fin n))
    (hr : asf.radial = []) (ha : asf.angular = [])
    (hm : ∀ a ∈ aids, s.atype a = asf.element) :
    asfRCutoff asf = none ∧
    asfCall asf sqrtFn s rStruct aids =
      Except.ok (aids.map (fun _ => ([] : List ℚ))) := by
  constructor
  · unfold asfRCutoff
    rw [hr, ha]
    rfl
  · induction aids with
    | nil => rfl
    | cons a rest ih =>
        have hma : s.atype a = asf.element := hm a (List.mem_cons_self a rest)
        have hrest : ∀ b ∈ rest, s.atype b = asf.element := fun b hb =>
          hm b (List.mem_cons_of_mem a hb)
        unfold asfCall
        rw [asfCompute, if_pos hma, ih hrest, hr, ha]
        rfl

/-- Witness for C10: the empty engine over `exStruct2` (both atoms have
type 0, matching the engine's central element). -/
theorem C10_witness :
    asfRCutoff { element := 0, radial := [], angular := [] } = none ∧
    asfCall { element := 0, radial := [], angular := [] } (fun q => q)
        exStruct2 10 [0, 1] =
      Except.ok (([0, 1] : List (Fin 2)).map (fun _ => ([] : List ℚ))) :=
  C10_empty_engine { element := 0, radial := [], angular := [] }
    (fun q => q) exStruct2 10 [0, 1] rfl rfl (fun _ _ => rfl)

/- ### Claim C8: periodic translation invariance -/

/-- Translating every atom by the same vector `t`.  The atom types and
lattice are untouched. -/
def translateStruct {n : ℕ} (s : QStructure n) (t : Vec3) : QStructure n :=
  { s with pos := fun i => vadd (s.pos i) t }

theorem translateStruct_atype {n : ℕ} (s : QStructure n) (t : Vec3) :
    (translateStruct s t).atype = s.atype := rfl

theorem vsub_vadd_cancel (a b t : Vec3) : vsub (vadd a t) (vadd b t) = vsub a b := by
  unfold vsub vadd
  simp only [Prod.mk.injEq]
  exact ⟨by ring, by ring, by ring⟩

/-- A uniform translation cancels inside the position difference before
the PBC correction is even applied. -/
theorem diffVec_translate {n : ℕ} (s : QStructure n) (t : Vec3)
    (i j : Fin n) : diffVec (translateStruct s t) i j = diffVec s i j := by
  unfold diffVec translateStruct
  rw [vsub_vadd_cancel]

theorem distSq_translate {n : ℕ} (s : QStructure n) (t : Vec3)
    (i j : Fin n) : distSq (translateStruct s t) i j = distSq s i j := by
  unfold distSq
  rw [diffVec_translate]

theorem distNorm_translate {n : ℕ} (sqrtFn : ℚ → ℚ) (s : QStructure n)
    (t : Vec3) (i j : Fin n) :
    distNorm sqrtFn (translateStruct s t) i j = distNorm sqrtFn s i j := by
  unfold distNorm
  rw [distSq_translate]

theorem calculateCutoffMasks_translate {n : ℕ} (sqrtFn : ℚ → ℚ)
    (s : QStructure n) (t : Vec3) (r : ℚ) (i j : Fin n) :
    calculateCutoffMasks sqrtFn (translateStruct s t) r i j =
      calculateCutoffMasks sqrtFn s r i j := by
  unfold calculateCutoffMasks
  rw [distNorm_translate]

theorem neighborIndices_translate {n : ℕ} (sqrtFn : ℚ → ℚ)
    (s : QStructure n) (t : Vec3) (r : ℚ) (i : Fin n) :
    neighborIndices sqrtFn (translateStruct s t) r i =
      neighborIndices sqrtFn s r i := by
  unfold neighborIndices
  simp only [calculateCutoffMasks_translate]

theorem radialSumTerm_translate {n : ℕ} (sqrtFn : ℚ → ℚ)
    (s : QStructure n) (t : Vec3) (term : RadialTerm) (i : Fin n)
    (ni : List (Fin n)) :
    radialSumTerm sqrtFn (translateStruct s t) term i ni =
      radialSumTerm sqrtFn s term i ni := by
  unfold radialSumTerm
  simp only [distNorm_translate, translateStruct_atype]

theorem torchipAngularSumTerm_translate {n : ℕ} (sqrtFn : ℚ → ℚ)
    (s : QStructure n) (t : Vec3) (term : AngularTerm) (i : Fin n)
    (ni : List (Fin n)) :
    torchipAngularSumTerm sqrtFn (translateStruct s t) term i ni =
      torchipAngularSumTerm sqrtFn s term i ni := by
  unfold torchipAngularSumTerm
  simp only [distNorm_translate, diffVec_translate, translateStruct_atype]

theorem asfCompute_translate {n : ℕ} (asf : AsfModel) (sqrtFn : ℚ → ℚ)
    (s : QStructure n) (t : Vec3) (rStruct : ℚ) (aid : Fin n) :
    asfCompute asf sqrtFn (translateStruct s t) rStruct aid =
      asfCompute asf sqrtFn s rStruct aid := by
  unfold asfCompute
  simp only [radialSumTerm_translate, torchipAngularSumTerm_translate,
    neighborIndices_translate, translateStruct_atype]

theorem asfCall_translate {n : ℕ} (asf : AsfModel) (sqrtFn : ℚ → ℚ)
    (s : QStructure n) (t : Vec3) (rStruct : ℚ) (aids : List (Fin n)) :
    asfCall asf sqrtFn (translateStruct s t) rStruct aids =
      asfCall asf sqrtFn s rStruct aids := by
  induction aids with
  | nil => rfl
  | cons a rest ih =>
      unfold asfCall
      rw [asfCompute_translate, ih]

/-- **C8.** For every periodic structure, translating every atom's
position by the same integer multiple of a lattice vector (a row of the
3x3 lattice matrix) leaves every computed interatomic distance and the
entire descriptor feature matrix unchanged.  (The cancellation happens
in `pos[i] - pos[j]` before the PBC correction, so the statement of the
claim — an integer multiple of a lattice row — is a special case of
invariance under an arbitrary uniform translation.) -/
theorem C8_translation_invariance {n : ℕ} (asf : AsfModel)
    (sqrtFn : ℚ → ℚ) (s : QStructure n) (rStruct : ℚ)
    (aids : List (Fin n)) (L : Mat3) (mInt : ℤ) (v t : Vec3)
    (hL : s.lattice = some L) (hv : v = L.1 ∨ v = L.2.1 ∨ v = L.2.2)
    (ht : t = ((mInt : ℚ) * v.1, (mInt : ℚ) * v.2.1, (mInt : ℚ) * v.2.2)) :
    (∀ i j : Fin n,
      distNorm sqrtFn (translateStruct s t) i j = distNorm sqrtFn s i j) ∧
    asfCall asf sqrtFn (translateStruct s t) rStruct aids =
      asfCall asf sqrtFn s rStruct aids :=
  ⟨fun i j => distNorm_translate sqrtFn s t i j,
    asfCall_translate asf sqrtFn s t rStruct aids⟩

/-- Witness for C8: `exStruct2` translated by `2 * (10,0,0)` (twice the
first lattice row); the distances and the feature matrix of a one-term
radial engine are unchanged. -/
theorem C8_witness :
    (∀ i j : Fin 2,
      distNorm (fun q => q)
          (translateStruct exStruct2 ((2 : ℚ) * 10, (2 : ℚ) * 0, (2 : ℚ) * 0)) i j =
        distNorm (fun q => q) exStruct2 i j) ∧
    asfCall { element := 0, radial := [{ kernel := fun r => r, rCutoff := 10, elemJ := 0 }], angular := [] }
        (fun q => q)
        (translateStruct exStruct2 ((2 : ℚ) * 10, (2 : ℚ) * 0, (2 : ℚ) * 0)) 10 [0, 1] =
      asfCall { element := 0, radial := [{ kernel := fun r => r, rCutoff := 10, elemJ := 0 }], angular := [] }
        (fun q => q) exStruct2 10 [0, 1] :=
  C8_translation_invariance
    { element := 0, radial := [{ kernel := fun r => r, rCutoff := 10, elemJ := 0 }], angular := [] }
    (fun q => q) exStruct2 10 [0, 1]
    ((10, 0, 0), (0, 10, 0), (0, 0, 10)) 2 (10, 0, 0)
    ((2 : ℚ) * 10, (2 : ℚ) * 0, (2 : ℚ) * 0)
    rfl (Or.inl rfl) (by norm_num)

/- ### Claim C4: zero-denominator handling in the cosine computation -/

/-- Value-level model of a floating-point division: a zero denominator
produces an undefined value (NaN), modelled as `none`. -/
def divChecked (a b : ℚ) : Option ℚ :=
  if b = 0 then none else some (a / b)

/-- The cosine line of `AtomicSymmetryFunction._compute`
(`torchip/descriptors/asf/asf.py`):
`cost = torch.inner(Rij, Rik) / (rij * rik)` — the denominator is not
guarded, so a zero denominator reaches the division. -/
def torchipCost (rij : Vec3) (rik : Vec3) (dij dik : ℚ) : Option ℚ :=
  divChecked (inner3 rij rik) (dij * dik)

/-- The cosine computation of `_inner_loop_over_angular_asf_terms`
(`mlpot/descriptors/asf/_asf.py`):
`operand = rij * dist_i; is_zero = operand == 0;`
`true_op = jnp.where(is_zero, 1.0, operand);`
`cost = jnp.where(mask_ik, inner / true_op, 1.0);`
`cost = jnp.where(is_zero, 0.0, cost)` — the zero denominator is
replaced by the safe placeholder `1.0` *before* the division and the
result is forced to `0.0` afterwards. -/
def mlpotCost (rij : Vec3) (rik : Vec3) (dij dik : ℚ) (maskIk : Bool) :
    Option ℚ :=
  let operand := dij * dik
  let isZero := decide (operand = 0)
  let trueOp : ℚ := if isZero then 1 else operand
  match (if maskIk then divChecked (inner3 rij rik) trueOp else some 1) with
  | none => none
  | some c => some (if isZero then 0 else c)

/-- A concrete structure with two coincident atoms (both at the origin,
no lattice): the difference vector to the "neighbor" is zero-length. -/
def exCoincident : QStructure 2 where
  pos := fun _ => (0, 0, 0)
  atype := fun _ => 0
  lattice := none

/-- **C4 (counterexample).** The claim fails for the torch
implementation: at the concrete coincident configuration the cosine
denominator `r_ij * r_ik` is zero and `AtomicSymmetryFunction._compute`
performs the unguarded division, producing an undefined value (`none`,
a NaN) — no detection or placeholder substitution happens.  The jax
implementation returns the defined value `0` on the same input. -/
theorem C4_counterexample :
    distNorm (fun q => q) exCoincident 0 1 = 0 ∧
    torchipCost (diffVec exCoincident 0 1) (diffVec exCoincident 0 1)
      (distNorm (fun q => q) exCoincident 0 1)
      (distNorm (fun q => q) exCoincident 0 1) = none ∧
    mlpotCost (diffVec exCoincident 0 1) (diffVec exCoincident 0 1)
      (distNorm (fun q => q) exCoincident 0 1)
      (distNorm (fun q => q) exCoincident 0 1) true = some 0 := by
  have hd : distNorm (fun q => q) exCoincident 0 1 = 0 := by
    norm_num [distNorm, distSq, diffVec, applyPbcOpt, vsub, normSq, exCoincident]
  have hv : diffVec exCoincident 0 1 = ((0 : ℚ), (0 : ℚ), (0 : ℚ)) := by
    norm_num [diffVec, applyPbcOpt, vsub, exCoincident]
  refine ⟨hd, ?_, ?_⟩ <;>
    simp [hd, hv, torchipCost, mlpotCost, divChecked, inner3]

/-- **C4 (amended).** In the jax implementation
(`_inner_loop_over_angular_asf_terms`), for *every* input the cosine
computation substitutes the safe placeholder `1` for a zero denominator
before the division, so the result is always a defined value, and that
value is `0` whenever the denominator `r_ij * r_ik` was zero.  The
torch implementation has no such guard (see the counterexample). -/
theorem C4_amended_mlpot_cost_defined (rij rik : Vec3) (dij dik : ℚ)
    (maskIk : Bool) :
    ∃ v : ℚ, mlpotCost rij rik dij dik maskIk = some v ∧
      (dij * dik = 0 → v = 0) := by
  unfold mlpotCost
  by_cases hz : dij * dik = 0
  · refine ⟨0, ?_, fun _ => rfl⟩
    cases maskIk <;> simp [hz, divChecked]
  · refine ⟨if maskIk then inner3 rij rik / (dij * dik) else 1, ?_,
      fun hc => absurd hc hz⟩
    cases maskIk <;> simp [hz, divChecked]

/-- Witness for the amended C4 at the coincident configuration. -/
theorem C4_witness :
    ∃ v : ℚ, mlpotCost (0, 0, 0) (0, 0, 0) 0 0 true = some v ∧
      ((0 : ℚ) * 0 = 0 → v = 0) :=
  C4_amended_mlpot_cost_defined (0, 0, 0) (0, 0, 0) 0 0 true

/- ### The mlpot (jax) angular accumulation (mlpot/descriptors/asf/_asf.py) -/

/-- The combined cutoff-and-type mask for neighbor element `j` in
`_calculate_angular_asf_per_atom`:
`mask_cutoff_i & (atype == emap[angular[2]])`.  The scalar cutoff mask
`_calculate_cutoff_mask_per_atom` (`mlpot/structure/_neighbor.py`, not
among the extracted sources) is the same `(rij <= r_cutoff) & (rij != 0)`
kernel as jaxip's `_calculate_cutoff_masks_per_atom` embedded above. -/
def mlpotMaskIJ {n : ℕ} (sqrtFn : ℚ → ℚ) (s : QStructure n)
    (t : AngularTerm) (i j : Fin n) : Bool :=
  calculateCutoffMasksPerAtom (distNorm sqrtFn s i j) t.rCutoff &&
    decide (s.atype j = t.elemJ)

/-- The combined cutoff-and-type mask for neighbor element `k`:
`mask_cutoff_i & (atype == emap[angular[3]])`. -/
def mlpotMaskIK {n : ℕ} (sqrtFn : ℚ → ℚ) (s : QStructure n)
    (t : AngularTerm) (i k : Fin n) : Bool :=
  calculateCutoffMasksPerAtom (distNorm sqrtFn s i k) t.rCutoff &&
    decide (s.atype k = t.elemK)

/-- The `rjk` computed by `_inner_loop_over_angular_asf_terms`:
`jnp.where(mask_ik, _calculate_distance_per_atom(Rij, diff_i, lattice)[0], 0.0)`,
i.e. the PBC distance between the already-PBC-corrected difference
vectors `Rij` and `Rik` (`diff_jk = diff_ji - diff_ik` per the source
comment), masked to `0` outside `mask_ik`.
(`_calculate_distance_per_atom` of `mlpot/structure/_structure.py` is
not among the extracted sources; per the spec §4.3 it is the same
difference / minimum-image / norm computation embedded above.) -/
def mlpotRjk {n : ℕ} (sqrtFn : ℚ → ℚ) (s : QStructure n)
    (t : AngularTerm) (i j k : Fin n) : ℚ :=
  if mlpotMaskIK sqrtFn s t i k then
    sqrtFn (normSq (applyPbcOpt (vsub (diffVec s i j) (diffVec s i k)) s.lattice))
  else 0

/-- The cosine value of `_inner_loop_over_angular_asf_terms` as a total
rational: `operand = rij * rik; true_op = where(is_zero, 1, operand);`
`cost = where(mask_ik, inner/true_op, 1); cost = where(is_zero, 0, cost)`.
Because the placeholder makes the divisor nonzero, the chain collapses
to this total function (see `C4_amended_mlpot_cost_defined` for the
`Option`-level version proving the divisor is never zero). -/
def mlpotCostVal {n : ℕ} (sqrtFn : ℚ → ℚ) (s : QStructure n)
    (t : AngularTerm) (i j k : Fin n) : ℚ :=
  if distNorm sqrtFn s i j * distNorm sqrtFn s i k = 0 then 0
  else if mlpotMaskIK sqrtFn s t i k then
    inner3 (diffVec s i j) (diffVec s i k) /
      (distNorm sqrtFn s i j * distNorm sqrtFn s i k)
  else 1

/-- The inner (`k`) sum of `_inner_loop_over_angular_asf_terms`:
`jnp.sum(kernel(rij, dist_i, rjk, cost), where=mask_ik & (rjk > 0.0))`
— the `rjk > 0` conjunct excludes `k = j`. -/
def mlpotInnerSum {n : ℕ} (sqrtFn : ℚ → ℚ) (s : QStructure n)
    (t : AngularTerm) (i j : Fin n) : ℚ :=
  (((List.finRange n).filter (fun k =>
      mlpotMaskIK sqrtFn s t i k &&
        decide (0 < mlpotRjk sqrtFn s t i j k))).map
    (fun k =>
      t.kernel (distNorm sqrtFn s i j) (distNorm sqrtFn s i k)
        (mlpotRjk sqrtFn s t i j k) (mlpotCostVal sqrtFn s t i j k))).sum

/-- `_calculate_angular_asf_per_atom`: scan the masked per-`j` inner
sums over every atom (`value` where `mask_ij` holds, else 0), then apply
the `lax.cond(at_j == at_k, x * 0.5, x)` double-counting correction. -/
def mlpotAngularSumTerm {n : ℕ} (sqrtFn : ℚ → ℚ) (s : QStructure n)
    (t : AngularTerm) (i : Fin n) : ℚ :=
  (if t.elemJ = t.elemK then (1 / 2 : ℚ) else 1) *
    ((List.finRange n).map (fun j =>
      if mlpotMaskIJ sqrtFn s t i j then mlpotInnerSum sqrtFn s t i j
      else 0)).sum

/- ### Geometry lemmas: in-box atoms make the two rjk computations agree -/

theorem applyPbcAxis_shift_int (dx l : ℚ) :
    ∃ z : ℤ, applyPbcAxis dx l = dx + (z : ℚ) * l := by
  rw [applyPbcAxis_cases]
  split_ifs
  · exact ⟨-1, by push_cast; ring⟩
  · exact ⟨1, by push_cast; ring⟩
  · exact ⟨0, by push_cast; ring⟩

/-- For inputs within one and a half box lengths, the corrected value
lies in `[-l/2, l/2]`. -/
theorem applyPbcAxis_range {l : ℚ} (hl : 0 ≤ l) (dx : ℚ)
    (h1 : -(3 * l / 2) ≤ dx) (h2 : dx ≤ 3 * l / 2) :
    -(l / 2) ≤ applyPbcAxis dx l ∧ applyPbcAxis dx l ≤ l / 2 := by
  rw [applyPbcAxis_cases]
  split_ifs <;> constructor <;> linarith

/-- The axis heart of the `rjk` agreement: for three coordinates inside
the box `[0, l)`, the PBC distance computed from the raw difference
`xj - xk` and the one computed from the difference of the two already
PBC-corrected vectors `Rij - Rik` have the same square. -/
theorem pbcAxisSqEq (xi xj xk l : ℚ) (hl : 0 < l)
    (hi0 : 0 ≤ xi) (hi1 : xi < l) (hj0 : 0 ≤ xj) (hj1 : xj < l)
    (hk0 : 0 ≤ xk) (hk1 : xk < l) :
    applyPbcAxis (applyPbcAxis (xi - xj) l - applyPbcAxis (xi - xk) l) l *
      applyPbcAxis (applyPbcAxis (xi - xj) l - applyPbcAxis (xi - xk) l) l =
    applyPbcAxis (xj - xk) l * applyPbcAxis (xj - xk) l := by
  have hl0 : 0 ≤ l := le_of_lt hl
  obtain ⟨a, hA⟩ := applyPbcAxis_shift_int (xj - xk) l
  obtain ⟨p, hP⟩ := applyPbcAxis_shift_int (xi - xj) l
  obtain ⟨q, hQ⟩ := applyPbcAxis_shift_int (xi - xk) l
  obtain ⟨b, hB⟩ := applyPbcAxis_shift_int
    (applyPbcAxis (xi - xj) l - applyPbcAxis (xi - xk) l) l
  have hPr := applyPbcAxis_range hl0 (xi - xj) (by linarith) (by linarith)
  have hQr := applyPbcAxis_range hl0 (xi - xk) (by linarith) (by linarith)
  have hAr := applyPbcAxis_range hl0 (xj - xk) (by linarith) (by linarith)
  have hBr := applyPbcAxis_range hl0
    (applyPbcAxis (xi - xj) l - applyPbcAxis (xi - xk) l)
    (by linarith [hPr.1, hPr.2, hQr.1, hQr.2])
    (by linarith [hPr.1, hPr.2, hQr.1, hQr.2])
  set A := applyPbcAxis (xj - xk) l with hAdef
  set B := applyPbcAxis (applyPbcAxis (xi - xj) l - applyPbcAxis (xi - xk) l) l
    with hBdef
  have hsum : A + B = ((a + b + p - q : ℤ) : ℚ) * l := by
    rw [hA, hB, hP, hQ]
    push_cast
    ring
  set c : ℤ := a + b + p - q with hcdef
  have hble : -l ≤ A + B ∧ A + B ≤ l := by
    constructor <;> linarith [hAr.1, hAr.2, hBr.1, hBr.2]
  have hc1 : (c : ℚ) ≤ 1 := by nlinarith [hble.2, hsum]
  have hc2 : (-1 : ℚ) ≤ (c : ℚ) := by nlinarith [hble.1, hsum]
  have hc1' : c ≤ 1 := by exact_mod_cast hc1
  have hc2' : -1 ≤ c := by exact_mod_cast hc2
  interval_cases c
  · have hBA : A = -B + -l := by
      have : A + B = -l := by rw [hsum]; push_cast; ring
      linarith
    have hA2 : A = -(l / 2) := by linarith [hAr.1, hAr.2, hBr.1, hBr.2, hBA]
    have hB2 : B = -(l / 2) := by linarith [hBA, hA2]
    rw [hA2, hB2]
  · have hBA : B = -A := by
      have : A + B = 0 := by rw [hsum]; push_cast; ring
      linarith
    rw [hBA]
    ring
  · have hBA : A = -B + l := by
      have : A + B = l := by rw [hsum]; push_cast; ring
      linarith
    have hA2 : A = l / 2 := by linarith [hAr.1, hAr.2, hBr.1, hBr.2, hBA]
    have hB2 : B = l / 2 := by linarith [hBA, hA2]
    rw [hA2, hB2]

/-- A structure whose atoms are all inside the PBC box (`0 ≤ x < L` on
every axis) whenever a lattice is present; see the source warning in
`Box._apply_pbc` ("Make sure shifting all atoms inside the PBC box
beforehand otherwise this method may not work as expected"). -/
def inBox {n : ℕ} (s : QStructure n) : Prop :=
  ∀ m, s.lattice = some m → ∀ i : Fin n,
    (0 ≤ (s.pos i).1 ∧ (s.pos i).1 < (matDiag m).1) ∧
    (0 ≤ (s.pos i).2.1 ∧ (s.pos i).2.1 < (matDiag m).2.1) ∧
    (0 ≤ (s.pos i).2.2 ∧ (s.pos i).2.2 < (matDiag m).2.2)

theorem inBox_latticeNonneg {n : ℕ} (s : QStructure n) (i : Fin n)
    (hbox : inBox s) : latticeNonneg s := by
  intro m hm
  obtain ⟨h1, h2, h3⟩ := hbox m hm i
  exact ⟨le_trans h1.1 (le_of_lt h1.2), le_trans h2.1 (le_of_lt h2.2),
    le_trans h3.1 (le_of_lt h3.2)⟩

/-- For in-box atoms, the squared `rjk` computed by the jax inner loop
(PBC distance between the two already-corrected difference vectors)
equals the squared direct PBC distance between atoms `j` and `k` used on
the torch side. -/
theorem mlpotRjk_normSq_eq {n : ℕ} (s : QStructure n) (hbox : inBox s)
    (i j k : Fin n) :
    normSq (applyPbcOpt (vsub (diffVec s i j) (diffVec s i k)) s.lattice)
      = distSq s j k := by
  unfold distSq diffVec
  cases hs : s.lattice with
  | none =>
      unfold applyPbcOpt normSq vsub
      ring
  | some m =>
      obtain ⟨hix, hiy, hiz⟩ := hbox m hs i
      obtain ⟨hjx, hjy, hjz⟩ := hbox m hs j
      obtain ⟨hkx, hky, hkz⟩ := hbox m hs k
      have hlx : 0 < (matDiag m).1 := lt_of_le_of_lt hix.1 hix.2
      have hly : 0 < (matDiag m).2.1 := lt_of_le_of_lt hiy.1 hiy.2
      have hlz : 0 < (matDiag m).2.2 := lt_of_le_of_lt hiz.1 hiz.2
      unfold applyPbcOpt applyPbc normSq vsub
      simp only
      rw [pbcAxisSqEq (s.pos i).1 (s.pos j).1 (s.pos k).1 (matDiag m).1 hlx
            hix.1 hix.2 hjx.1 hjx.2 hkx.1 hkx.2,
          pbcAxisSqEq (s.pos i).2.1 (s.pos j).2.1 (s.pos k).2.1 (matDiag m).2.1
            hly hiy.1 hiy.2 hjy.1 hjy.2 hky.1 hky.2,
          pbcAxisSqEq (s.pos i).2.2 (s.pos j).2.2 (s.pos k).2.2 (matDiag m).2.2
            hlz hiz.1 hiz.2 hjz.1 hjz.2 hkz.1 hkz.2]

/- ### List summation helpers for the double-counting equivalence -/

theorem inner3_comm (a b : Vec3) : inner3 a b = inner3 b a := by
  unfold inner3
  ring

/-- A masked sum (`jnp.sum(..., where=mask)`) equals the sum over the
filtered index list. -/
theorem listSumIfFilter {α : Type} (p : α → Bool) (f : α → ℚ) :
    ∀ l : List α,
      (l.map (fun a => if p a then f a else 0)).sum = ((l.filter p).map f).sum := by
  intro l
  induction l with
  | nil => rfl
  | cons a t ih =>
      by_cases h : p a
      · simp [List.filter_cons, h, ih]
      · simp [List.filter_cons, h, ih]

theorem listSumMapAdd {α : Type} (f g : α → ℚ) :
    ∀ l : List α, (l.map (fun a => f a + g a)).sum = (l.map f).sum + (l.map g).sum := by
  intro l
  induction l with
  | nil => simp
  | cons a t ih => simp [ih]; ring

/-- The double-counting identity behind the `k > j` convention: over a
strictly sorted index list `S` and a pairwise-symmetric summand `F`,
twice the sum over pairs with `j < k` equals the sum over all ordered
pairs with `k ≠ j`. -/
theorem pairSumDouble {n : ℕ} (F : Fin n → Fin n → ℚ) :
    ∀ S : List (Fin n), S.Pairwise (· < ·) →
      (∀ j ∈ S, ∀ k ∈ S, F j k = F k j) →
      2 * (S.map (fun j =>
            ((S.filter (fun k => decide (j < k))).map (fun k => F j k)).sum)).sum
        = (S.map (fun j =>
            ((S.filter (fun k => decide (k ≠ j))).map (fun k => F j k)).sum)).sum := by
  intro S
  induction S with
  | nil => intro _ _; simp
  | cons x t ih =>
      intro hp hsym
      have hx : ∀ y ∈ t, x < y := (List.pairwise_cons.mp hp).1
      have ht : t.Pairwise (· < ·) := (List.pairwise_cons.mp hp).2
      have htsym : ∀ j ∈ t, ∀ k ∈ t, F j k = F k j := fun j hj k hk =>
        hsym j (List.mem_cons_of_mem x hj) k (List.mem_cons_of_mem x hk)
      have e1 : (x :: t).filter (fun k => decide (x < k)) = t := by
        rw [List.filter_cons, if_neg (by simp)]
        exact List.filter_eq_self.mpr (fun y hy => by simpa using hx y hy)
      have e2 : ∀ j ∈ t, (x :: t).filter (fun k => decide (j < k))
          = t.filter (fun k => decide (j < k)) := by
        intro j hj
        have hjx : ¬(j < x) := fun hc => absurd (lt_trans hc (hx j hj)) (lt_irrefl j)
        rw [List.filter_cons, if_neg (by simpa using hjx)]
      have e3 : (x :: t).filter (fun k => decide (k ≠ x)) = t := by
        rw [List.filter_cons, if_neg (by simp)]
        refine List.filter_eq_self.mpr (fun y hy => ?_)
        have : y ≠ x := fun hc => absurd (hc ▸ hx y hy) (lt_irrefl x)
        simpa using this
      have e4 : ∀ j ∈ t, (x :: t).filter (fun k => decide (k ≠ j))
          = x :: t.filter (fun k => decide (k ≠ j)) := by
        intro j hj
        have hne : x ≠ j := fun hc => absurd (hc ▸ hx j hj) (lt_irrefl j)
        rw [List.filter_cons, if_pos (by simpa using hne)]
      simp only [List.map_cons, List.sum_cons, e1, e3]
      have r2 : t.map (fun j =>
            (((x :: t).filter (fun k => decide (j < k))).map (fun k => F j k)).sum)
          = t.map (fun j =>
            ((t.filter (fun k => decide (j < k))).map (fun k => F j k)).sum) :=
        List.map_congr_left (fun j hj => by rw [e2 j hj])
      have r4 : t.map (fun j =>
            (((x :: t).filter (fun k => decide (k ≠ j))).map (fun k => F j k)).sum)
          = t.map (fun j => F j x +
            ((t.filter (fun k => decide (k ≠ j))).map (fun k => F j k)).sum) :=
        List.map_congr_left (fun j hj => by rw [e4 j hj]; simp)
      rw [r2, r4, listSumMapAdd]
      have rsym : (t.map (fun j => F j x)).sum = (t.map (fun k => F x k)).sum := by
        apply congrArg
        exact List.map_congr_left (fun j hj =>
          hsym j (List.mem_cons_of_mem x hj) x (List.mem_cons_self x t))
      rw [rsym]
      have hih := ih ht htsym
      linarith [hih]

/- ### Bridging the torch and jax angular accumulations -/

/-- Proof infrastructure: the list of atoms that pass the cutoff-and-
type-`elemJ` mask around atom `i` — the common pair-candidate set of the
two angular implementations when `elemJ = elemK`. -/
def angularMaskList {n : ℕ} (sqrtFn : ℚ → ℚ) (s : QStructure n)
    (t : AngularTerm) (i : Fin n) : List (Fin n) :=
  (List.finRange n).filter (fun j => mlpotMaskIJ sqrtFn s t i j)

/-- Proof infrastructure: the per-pair summand common to both angular
implementations — the kernel at `(rij, rik, rjk, cosθ)` with the direct
PBC distance for `rjk` and the unguarded cosine. -/
def angularPairTerm {n : ℕ} (sqrtFn : ℚ → ℚ) (s : QStructure n)
    (t : AngularTerm) (i j k : Fin n) : ℚ :=
  t.kernel (distNorm sqrtFn s i j) (distNorm sqrtFn s i k)
    (distNorm sqrtFn s j k)
    (inner3 (diffVec s i j) (diffVec s i k) /
      (distNorm sqrtFn s i j * distNorm sqrtFn s i k))

/-- The membership consequences of the combined `j` mask. -/
theorem mlpotMaskIJ_iff {n : ℕ} (sqrtFn : ℚ → ℚ) (s : QStructure n)
    (t : AngularTerm) (i j : Fin n) :
    mlpotMaskIJ sqrtFn s t i j = true ↔
      distNorm sqrtFn s i j ≤ t.rCutoff ∧ distNorm sqrtFn s i j ≠ 0 ∧
        s.atype j = t.elemJ := by
  simp [mlpotMaskIJ, calculateCutoffMasksPerAtom, and_assoc]

/-- When `elemJ = elemK` the two masks agree. -/
theorem mlpotMaskIK_eq_IJ {n : ℕ} (sqrtFn : ℚ → ℚ) (s : QStructure n)
    (t : AngularTerm) (i k : Fin n) (helem : t.elemJ = t.elemK) :
    mlpotMaskIK sqrtFn s t i k = mlpotMaskIJ sqrtFn s t i k := by
  simp [mlpotMaskIK, mlpotMaskIJ, helem]

/-- The torchip per-term cutoff-and-type filter of the neighbor list
collapses to `angularMaskList` when the neighbor list was built with a
cutoff at least as large as the term cutoff. -/
theorem torchip_filter_eq_maskList {n : ℕ} (sqrtFn : ℚ → ℚ)
    (s : QStructure n) (t : AngularTerm) (i : Fin n) (rStruct : ℚ)
    (hRs : t.rCutoff ≤ rStruct) :
    (neighborIndices sqrtFn s rStruct i).filter (fun c =>
        decide (distNorm sqrtFn s i c ≤ t.rCutoff) &&
          decide (s.atype c = t.elemJ))
      = angularMaskList sqrtFn s t i := by
  rw [neighborIndices, List.filter_filter, angularMaskList]
  apply List.filter_congr
  intro c _
  refine Bool.eq_iff_iff.mpr ?_
  rw [mlpotMaskIJ_iff]
  simp only [Bool.and_eq_true, decide_eq_true_eq, calculateCutoffMasks,
    calculateCutoffMasksPerAtom, Bool.not_eq_true', decide_eq_false_iff_not]
  constructor
  · rintro ⟨⟨h1, h2⟩, h3, h4⟩
    exact ⟨h1, h4, h2⟩
  · rintro ⟨h1, h2, h3⟩
    exact ⟨⟨h1, h3⟩, le_trans h1 hRs, h2⟩

/-- The torch angular accumulation (`k > j` convention, same neighbor
elements) is the sum of the common pair term over sorted pairs of the
common mask list. -/
theorem torchip_angular_as_pairs {n : ℕ} (sqrtFn : ℚ → ℚ)
    (s : QStructure n) (t : AngularTerm) (i : Fin n) (rStruct : ℚ)
    (helem : t.elemJ = t.elemK) (hRs : t.rCutoff ≤ rStruct) :
    torchipAngularSumTerm sqrtFn s t i (neighborIndices sqrtFn s rStruct i)
      = ((angularMaskList sqrtFn s t i).map (fun j =>
          (((angularMaskList sqrtFn s t i).filter (fun k => decide (j < k))).map
            (fun k => angularPairTerm sqrtFn s t i j k)).sum)).sum := by
  have hfil := torchip_filter_eq_maskList sqrtFn s t i rStruct hRs
  have hfilK : (neighborIndices sqrtFn s rStruct i).filter (fun c =>
      decide (distNorm sqrtFn s i c ≤ t.rCutoff) &&
        decide (s.atype c = t.elemK)) = angularMaskList sqrtFn s t i := by
    rw [← helem]
    exact hfil
  unfold torchipAngularSumTerm
  simp only [if_pos helem, hfil, hfilK, angularPairTerm]

/-- The jax angular accumulation (ordered pairs, `rjk > 0` exclusion,
post-hoc 0.5 factor) is half the sum of the same pair term over all
ordered distinct pairs of the common mask list — provided the atoms sit
inside the box, no two distinct masked neighbors coincide, and the
square root is positive exactly on positive input. -/
theorem mlpot_angular_as_pairs {n : ℕ} (sqrtFn : ℚ → ℚ)
    (s : QStructure n) (t : AngularTerm) (i : Fin n)
    (helem : t.elemJ = t.elemK) (hbox : inBox s)
    (hsq : ∀ x : ℚ, 0 ≤ x → (0 < sqrtFn x ↔ 0 < x))
    (hnc : ∀ j k : Fin n, j ≠ k →
      mlpotMaskIJ sqrtFn s t i j = true → mlpotMaskIJ sqrtFn s t i k = true →
      0 < distSq s j k) :
    mlpotAngularSumTerm sqrtFn s t i
      = (1 / 2 : ℚ) * ((angularMaskList sqrtFn s t i).map (fun j =>
          (((angularMaskList sqrtFn s t i).filter (fun k => decide (k ≠ j))).map
            (fun k => angularPairTerm sqrtFn s t i j k)).sum)).sum := by
  have hlnn : latticeNonneg s := inBox_latticeNonneg s i hbox
  unfold mlpotAngularSumTerm
  rw [if_pos helem]
  congr 1
  rw [listSumIfFilter (fun j => mlpotMaskIJ sqrtFn s t i j)
    (fun j => mlpotInnerSum sqrtFn s t i j) (List.finRange n)]
  apply congrArg List.sum
  apply List.map_congr_left
  intro j hj
  have hjP : mlpotMaskIJ sqrtFn s t i j = true := (List.mem_filter.mp hj).2
  obtain ⟨hjrc, hjne, hjat⟩ := (mlpotMaskIJ_iff sqrtFn s t i j).mp hjP
  unfold mlpotInnerSum
  have hstep1 : (List.finRange n).filter (fun k =>
      mlpotMaskIK sqrtFn s t i k &&
        decide (0 < mlpotRjk sqrtFn s t i j k))
    = (angularMaskList sqrtFn s t i).filter (fun k =>
        decide (0 < mlpotRjk sqrtFn s t i j k)) := by
    rw [angularMaskList, List.filter_filter]
    apply List.filter_congr
    intro c _
    rw [mlpotMaskIK_eq_IJ sqrtFn s t i c helem, Bool.and_comm]
  rw [hstep1]
  have hstep2 : (angularMaskList sqrtFn s t i).filter (fun k =>
      decide (0 < mlpotRjk sqrtFn s t i j k))
    = (angularMaskList sqrtFn s t i).filter (fun k => decide (k ≠ j)) := by
    apply List.filter_congr
    intro k hk
    have hkP : mlpotMaskIJ sqrtFn s t i k = true := (List.mem_filter.mp hk).2
    have hmask : mlpotMaskIK sqrtFn s t i k = true := by
      rw [mlpotMaskIK_eq_IJ sqrtFn s t i k helem]
      exact hkP
    have hrjk : mlpotRjk sqrtFn s t i j k = distNorm sqrtFn s j k := by
      rw [mlpotRjk, if_pos hmask, mlpotRjk_normSq_eq s hbox i j k]
      rfl
    rw [hrjk]
    refine decide_eq_decide.mpr ?_
    unfold distNorm
    rw [hsq _ (distSq_nonneg s j k)]
    constructor
    · intro hpos hkj
      rw [hkj, distSq_self s hlnn j] at hpos
      exact lt_irrefl 0 hpos
    · intro hkj
      exact hnc j k (Ne.symm hkj) hjP hkP
  rw [hstep2]
  apply congrArg List.sum
  apply List.map_congr_left
  intro k hk
  have hkmem : k ∈ angularMaskList sqrtFn s t i := (List.mem_filter.mp hk).1
  have hkP : mlpotMaskIJ sqrtFn s t i k = true := (List.mem_filter.mp hkmem).2
  obtain ⟨hkrc, hkdne, hkat⟩ := (mlpotMaskIJ_iff sqrtFn s t i k).mp hkP
  have hmask : mlpotMaskIK sqrtFn s t i k = true := by
    rw [mlpotMaskIK_eq_IJ sqrtFn s t i k helem]
    exact hkP
  have hrjk : mlpotRjk sqrtFn s t i j k = distNorm sqrtFn s j k := by
    rw [mlpotRjk, if_pos hmask, mlpotRjk_normSq_eq s hbox i j k]
    rfl
  have hprod : distNorm sqrtFn s i j * distNorm sqrtFn s i k ≠ 0 :=
    mul_ne_zero hjne hkdne
  rw [angularPairTerm, mlpotCostVal, if_neg hprod, if_pos hmask, hrjk]

/-- The common pair term is symmetric in its two neighbor atoms, for a
kernel symmetric in its first two (distance) arguments. -/
theorem angularPairTerm_symm {n : ℕ} (sqrtFn : ℚ → ℚ) (s : QStructure n)
    (t : AngularTerm) (hlnn : latticeNonneg s)
    (hker : ∀ a b c d : ℚ, t.kernel a b c d = t.kernel b a c d)
    (i j k : Fin n) :
    angularPairTerm sqrtFn s t i j k = angularPairTerm sqrtFn s t i k j := by
  unfold angularPairTerm
  rw [hker]
  have h1 : distNorm sqrtFn s j k = distNorm sqrtFn s k j := by
    unfold distNorm
    rw [distSq_symm s hlnn j k]
  rw [h1, inner3_comm,
    mul_comm (distNorm sqrtFn s i j) (distNorm sqrtFn s i k)]

/-- **C2 (amended).** For an angular term whose two neighbor elements
coincide and whose kernel is symmetric in its two neighbor distances
(as the G3/G9 kernels are), on a structure whose atoms all sit inside
the box and in which no two distinct within-cutoff matching neighbors
coincide, the torch accumulation that restricts the inner loop to
neighbor indices `k > j` equals the jax accumulation that iterates all
ordered pairs (excluding coincident ones via `rjk > 0`) and multiplies
the total by `0.5` — for any square-root function positive exactly on
positive input and any neighbor-list cutoff at least the term cutoff. -/
theorem C2_amended_angular_equivalence {n : ℕ} (sqrtFn : ℚ → ℚ)
    (s : QStructure n) (t : AngularTerm) (i : Fin n) (rStruct : ℚ)
    (helem : t.elemJ = t.elemK)
    (hker : ∀ a b c d : ℚ, t.kernel a b c d = t.kernel b a c d)
    (hbox : inBox s)
    (hsq : ∀ x : ℚ, 0 ≤ x → (0 < sqrtFn x ↔ 0 < x))
    (hRs : t.rCutoff ≤ rStruct)
    (hnc : ∀ j k : Fin n, j ≠ k →
      mlpotMaskIJ sqrtFn s t i j = true → mlpotMaskIJ sqrtFn s t i k = true →
      0 < distSq s j k) :
    torchipAngularSumTerm sqrtFn s t i (neighborIndices sqrtFn s rStruct i)
      = mlpotAngularSumTerm sqrtFn s t i := by
  have hlnn : latticeNonneg s := inBox_latticeNonneg s i hbox
  rw [torchip_angular_as_pairs sqrtFn s t i rStruct helem hRs,
      mlpot_angular_as_pairs sqrtFn s t i helem hbox hsq hnc]
  have hsym : ∀ j ∈ angularMaskList sqrtFn s t i,
      ∀ k ∈ angularMaskList sqrtFn s t i,
      angularPairTerm sqrtFn s t i j k = angularPairTerm sqrtFn s t i k j :=
    fun j _ k _ => angularPairTerm_symm sqrtFn s t hlnn hker i j k
  have hd := pairSumDouble (fun j k => angularPairTerm sqrtFn s t i j k)
    (angularMaskList sqrtFn s t i)
    ((List.pairwise_lt_finRange n).filter _) hsym
  linarith [hd]

/-- Concrete counterexample structure for C2: central atom 0 at the
origin and three matching neighbors, one of them (atom 2 at `x = -13`)
lying *outside* the `[0,10)` box.  Cubic box of side 10. -/
def exC2 : QStructure 4 where
  pos := ![(0, 0, 0), (4, 0, 0), (-13, 0, 0), (1, 0, 0)]
  atype := ![0, 1, 1, 1]
  lattice := some ((10, 0, 0), (0, 10, 0), (0, 0, 10))

/-- A concrete angular term with equal neighbor elements and a kernel
symmetric in its two neighbor distances (it projects onto `rjk`). -/
def exTermC2 : AngularTerm where
  kernel := fun _ _ c _ => c
  rCutoff := 20
  elemJ := 1
  elemK := 1

/-- Concrete in-box witness structure for the amended C2: no lattice,
central atom 0 with two distinct matching neighbors. -/
def exC2W : QStructure 3 where
  pos := ![(0, 0, 0), (3, 0, 0), (0, 4, 0)]
  atype := ![0, 1, 1]
  lattice := none

/-- Witness for the amended C2 at the concrete structure `exC2W` with
`sqrtFn = id`. -/
theorem exC2W_noncoincident : ∀ j k : Fin 3, j ≠ k →
    mlpotMaskIJ (fun q => q) exC2W exTermC2 0 j = true →
    mlpotMaskIJ (fun q => q) exC2W exTermC2 0 k = true →
    0 < distSq exC2W j k := by
  intro j k hjk hj hk
  fin_cases j <;> fin_cases k <;>
    simp_all [mlpotMaskIJ, exC2W, exTermC2, distSq, diffVec, applyPbcOpt,
      vsub, normSq, Matrix.cons_val_zero, Matrix.cons_val_one,
      Matrix.head_cons, Matrix.cons_val_two, Matrix.tail_cons] <;>
    norm_num

/-- Witness for the amended C2 at the concrete structure `exC2W` with
`sqrtFn = id`. -/
theorem C2_witness :
    torchipAngularSumTerm (fun q => q) exC2W exTermC2 0
      (neighborIndices (fun q => q) exC2W 20 0)
      = mlpotAngularSumTerm (fun q => q) exC2W exTermC2 0 :=
  C2_amended_angular_equivalence (fun q => q) exC2W exTermC2 0 20 rfl
    (fun _ _ _ _ => rfl)
    (fun _ hm => nomatch hm)
    (fun _ _ => Iff.rfl)
    (le_refl 20)
    exC2W_noncoincident

/- Staged evaluation of the two angular accumulations on `exC2`. -/

theorem exC2_diff1 : diffVec exC2 0 1 = (-4, 0, 0) := by
  norm_num [diffVec, exC2, applyPbcOpt, applyPbc, applyPbcAxis,
    applyPbcWhereHigh, applyPbcWhereLow, matDiag, vsub, Matrix.cons_val_zero,
    Matrix.cons_val_one, Matrix.head_cons]

theorem exC2_diff2 : diffVec exC2 0 2 = (3, 0, 0) := by
  norm_num [diffVec, exC2, applyPbcOpt, applyPbc, applyPbcAxis,
    applyPbcWhereHigh, applyPbcWhereLow, matDiag, vsub, Matrix.cons_val_zero,
    Matrix.cons_val_one, Matrix.head_cons, Matrix.cons_val_two,
    Matrix.tail_cons]

theorem exC2_diff3 : diffVec exC2 0 3 = (-1, 0, 0) := by
  norm_num [diffVec, exC2, applyPbcOpt, applyPbc, applyPbcAxis,
    applyPbcWhereHigh, applyPbcWhereLow, matDiag, vsub, Matrix.cons_val_zero,
    Matrix.cons_val_one, Matrix.head_cons, Matrix.cons_val_two,
    Matrix.tail_cons, Matrix.cons_val_three]

theorem exC2_dist1 : distNorm (fun q => q) exC2 0 1 = 16 := by
  norm_num [distNorm, distSq, exC2_diff1, normSq]

theorem exC2_dist2 : distNorm (fun q => q) exC2 0 2 = 9 := by
  norm_num [distNorm, distSq, exC2_diff2, normSq]

theorem exC2_dist3 : distNorm (fun q => q) exC2 0 3 = 1 := by
  norm_num [distNorm, distSq, exC2_diff3, normSq]

theorem exC2_dist0 : distNorm (fun q => q) exC2 0 0 = 0 := by
  norm_num [distNorm, distSq, diffVec, exC2, applyPbcOpt, applyPbc,
    applyPbcAxis, applyPbcWhereHigh, applyPbcWhereLow, matDiag, vsub,
    Matrix.cons_val_zero, normSq]

theorem exC2_mask0 : mlpotMaskIJ (fun q => q) exC2 exTermC2 0 0 = false := by
  simp [mlpotMaskIJ, exC2, exTermC2, Matrix.cons_val_zero]

theorem exC2_mask1 : mlpotMaskIJ (fun q => q) exC2 exTermC2 0 1 = true := by
  unfold mlpotMaskIJ calculateCutoffMasksPerAtom
  rw [exC2_dist1]
  norm_num [exC2, exTermC2, Matrix.cons_val_one, Matrix.head_cons]

theorem exC2_mask2 : mlpotMaskIJ (fun q => q) exC2 exTermC2 0 2 = true := by
  unfold mlpotMaskIJ calculateCutoffMasksPerAtom
  rw [exC2_dist2]
  norm_num [exC2, exTermC2, Matrix.cons_val_two, Matrix.tail_cons,
    Matrix.head_cons]

theorem exC2_mask3 : mlpotMaskIJ (fun q => q) exC2 exTermC2 0 3 = true := by
  unfold mlpotMaskIJ calculateCutoffMasksPerAtom
  rw [exC2_dist3]
  norm_num [exC2, exTermC2, Matrix.cons_val_three, Matrix.tail_cons,
    Matrix.head_cons]

theorem exC2_rjk11 : mlpotRjk (fun q => q) exC2 exTermC2 0 1 1 = 0 := by
  simp only [mlpotRjk,
    mlpotMaskIK_eq_IJ (fun q => q) exC2 exTermC2 0 1 rfl, exC2_mask1, if_true]
  rw [exC2_diff1]
  norm_num [exC2, applyPbcOpt, applyPbc, applyPbcAxis, applyPbcWhereHigh,
    applyPbcWhereLow, matDiag, vsub, normSq]

theorem exC2_rjk12 : mlpotRjk (fun q => q) exC2 exTermC2 0 1 2 = 9 := by
  simp only [mlpotRjk,
    mlpotMaskIK_eq_IJ (fun q => q) exC2 exTermC2 0 2 rfl, exC2_mask2, if_true]
  rw [exC2_diff1, exC2_diff2]
  norm_num [exC2, applyPbcOpt, applyPbc, applyPbcAxis, applyPbcWhereHigh,
    applyPbcWhereLow, matDiag, vsub, normSq]

theorem exC2_rjk13 : mlpotRjk (fun q => q) exC2 exTermC2 0 1 3 = 9 := by
  simp only [mlpotRjk,
    mlpotMaskIK_eq_IJ (fun q => q) exC2 exTermC2 0 3 rfl, exC2_mask3, if_true]
  rw [exC2_diff1, exC2_diff3]
  norm_num [exC2, applyPbcOpt, applyPbc, applyPbcAxis, applyPbcWhereHigh,
    applyPbcWhereLow, matDiag, vsub, normSq]

theorem exC2_rjk21 : mlpotRjk (fun q => q) exC2 exTermC2 0 2 1 = 9 := by
  simp only [mlpotRjk,
    mlpotMaskIK_eq_IJ (fun q => q) exC2 exTermC2 0 1 rfl, exC2_mask1, if_true]
  rw [exC2_diff1, exC2_diff2]
  norm_num [exC2, applyPbcOpt, applyPbc, applyPbcAxis, applyPbcWhereHigh,
    applyPbcWhereLow, matDiag, vsub, normSq]

theorem exC2_rjk22 : mlpotRjk (fun q => q) exC2 exTermC2 0 2 2 = 0 := by
  simp only [mlpotRjk,
    mlpotMaskIK_eq_IJ (fun q => q) exC2 exTermC2 0 2 rfl, exC2_mask2, if_true]
  rw [exC2_diff2]
  norm_num [exC2, applyPbcOpt, applyPbc, applyPbcAxis, applyPbcWhereHigh,
    applyPbcWhereLow, matDiag, vsub, normSq]

theorem exC2_rjk23 : mlpotRjk (fun q => q) exC2 exTermC2 0 2 3 = 16 := by
  simp only [mlpotRjk,
    mlpotMaskIK_eq_IJ (fun q => q) exC2 exTermC2 0 3 rfl, exC2_mask3, if_true]
  rw [exC2_diff2, exC2_diff3]
  norm_num [exC2, applyPbcOpt, applyPbc, applyPbcAxis, applyPbcWhereHigh,
    applyPbcWhereLow, matDiag, vsub, normSq]

theorem exC2_rjk31 : mlpotRjk (fun q => q) exC2 exTermC2 0 3 1 = 9 := by
  simp only [mlpotRjk,
    mlpotMaskIK_eq_IJ (fun q => q) exC2 exTermC2 0 1 rfl, exC2_mask1, if_true]
  rw [exC2_diff1, exC2_diff3]
  norm_num [exC2, applyPbcOpt, applyPbc, applyPbcAxis, applyPbcWhereHigh,
    applyPbcWhereLow, matDiag, vsub, normSq]

theorem exC2_rjk32 : mlpotRjk (fun q => q) exC2 exTermC2 0 3 2 = 16 := by
  simp only [mlpotRjk,
    mlpotMaskIK_eq_IJ (fun q => q) exC2 exTermC2 0 2 rfl, exC2_mask2, if_true]
  rw [exC2_diff2, exC2_diff3]
  norm_num [exC2, applyPbcOpt, applyPbc, applyPbcAxis, applyPbcWhereHigh,
    applyPbcWhereLow, matDiag, vsub, normSq]

theorem exC2_rjk33 : mlpotRjk (fun q => q) exC2 exTermC2 0 3 3 = 0 := by
  simp only [mlpotRjk,
    mlpotMaskIK_eq_IJ (fun q => q) exC2 exTermC2 0 3 rfl, exC2_mask3, if_true]
  rw [exC2_diff3]
  norm_num [exC2, applyPbcOpt, applyPbc, applyPbcAxis, applyPbcWhereHigh,
    applyPbcWhereLow, matDiag, vsub, normSq]

theorem exTermC2_kernel_apply (a b c d : ℚ) : exTermC2.kernel a b c d = c := rfl

theorem exTermC2_elems : exTermC2.elemJ = 1 ∧ exTermC2.elemK = 1 := ⟨rfl, rfl⟩

theorem exC2_inner1 : mlpotInnerSum (fun q => q) exC2 exTermC2 0 1 = 18 := by
  have hfr : (List.finRange 4) = [0, 1, 2, 3] := by decide
  unfold mlpotInnerSum
  rw [hfr]
  norm_num [List.filter, exTermC2_kernel_apply,
    mlpotMaskIK_eq_IJ (fun q => q) exC2 exTermC2 0 0 rfl,
    mlpotMaskIK_eq_IJ (fun q => q) exC2 exTermC2 0 1 rfl,
    mlpotMaskIK_eq_IJ (fun q => q) exC2 exTermC2 0 2 rfl,
    mlpotMaskIK_eq_IJ (fun q => q) exC2 exTermC2 0 3 rfl,
    exC2_mask0, exC2_mask1, exC2_mask2, exC2_mask3,
    exC2_rjk11, exC2_rjk12, exC2_rjk13]

theorem exC2_inner2 : mlpotInnerSum (fun q => q) exC2 exTermC2 0 2 = 25 := by
  have hfr : (List.finRange 4) = [0, 1, 2, 3] := by decide
  unfold mlpotInnerSum
  rw [hfr]
  norm_num [List.filter, exTermC2_kernel_apply,
    mlpotMaskIK_eq_IJ (fun q => q) exC2 exTermC2 0 0 rfl,
    mlpotMaskIK_eq_IJ (fun q => q) exC2 exTermC2 0 1 rfl,
    mlpotMaskIK_eq_IJ (fun q => q) exC2 exTermC2 0 2 rfl,
    mlpotMaskIK_eq_IJ (fun q => q) exC2 exTermC2 0 3 rfl,
    exC2_mask0, exC2_mask1, exC2_mask2, exC2_mask3,
    exC2_rjk21, exC2_rjk22, exC2_rjk23]

theorem exC2_inner3 : mlpotInnerSum (fun q => q) exC2 exTermC2 0 3 = 25 := by
  have hfr : (List.finRange 4) = [0, 1, 2, 3] := by decide
  unfold mlpotInnerSum
  rw [hfr]
  norm_num [List.filter, exTermC2_kernel_apply,
    mlpotMaskIK_eq_IJ (fun q => q) exC2 exTermC2 0 0 rfl,
    mlpotMaskIK_eq_IJ (fun q => q) exC2 exTermC2 0 1 rfl,
    mlpotMaskIK_eq_IJ (fun q => q) exC2 exTermC2 0 2 rfl,
    mlpotMaskIK_eq_IJ (fun q => q) exC2 exTermC2 0 3 rfl,
    exC2_mask0, exC2_mask1, exC2_mask2, exC2_mask3,
    exC2_rjk31, exC2_rjk32, exC2_rjk33]

theorem exC2_mlpot_total :
    mlpotAngularSumTerm (fun q => q) exC2 exTermC2 0 = 34 := by
  have hfr : (List.finRange 4) = [0, 1, 2, 3] := by decide
  unfold mlpotAngularSumTerm
  rw [hfr]
  norm_num [exTermC2_elems.1, exTermC2_elems.2, exC2_mask0, exC2_mask1,
    exC2_mask2, exC2_mask3, exC2_inner1, exC2_inner2, exC2_inner3]

theorem exC2_neighbors : neighborIndices (fun q => q) exC2 20 0 = [1, 2, 3] := by
  have hfr : (List.finRange 4) = [0, 1, 2, 3] := by decide
  norm_num [neighborIndices, hfr, exC2, calculateCutoffMasks,
    calculateCutoffMasksPerAtom, distNorm, distSq, diffVec, applyPbcOpt,
    applyPbc, applyPbcAxis, applyPbcWhereHigh, applyPbcWhereLow, matDiag,
    vsub, normSq, List.filter, Matrix.cons_val_zero, Matrix.cons_val_one,
    Matrix.head_cons, Matrix.cons_val_two, Matrix.tail_cons,
    Matrix.cons_val_three]
  decide

theorem exC2_maskList :
    angularMaskList (fun q => q) exC2 exTermC2 0 = [1, 2, 3] := by
  have hfr : (List.finRange 4) = [0, 1, 2, 3] := by decide
  unfold angularMaskList
  rw [hfr]
  norm_num [List.filter, exC2_mask0, exC2_mask1, exC2_mask2, exC2_mask3]

theorem exC2_diff12 : diffVec exC2 1 2 = (7, 0, 0) := by
  norm_num [diffVec, exC2, applyPbcOpt, applyPbc, applyPbcAxis,
    applyPbcWhereHigh, applyPbcWhereLow, matDiag, vsub, Matrix.cons_val_one,
    Matrix.head_cons, Matrix.cons_val_two, Matrix.tail_cons]

theorem exC2_diff13 : diffVec exC2 1 3 = (3, 0, 0) := by
  norm_num [diffVec, exC2, applyPbcOpt, applyPbc, applyPbcAxis,
    applyPbcWhereHigh, applyPbcWhereLow, matDiag, vsub, Matrix.cons_val_one,
    Matrix.head_cons, Matrix.cons_val_three, Matrix.tail_cons]

theorem exC2_diff23 : diffVec exC2 2 3 = (-4, 0, 0) := by
  norm_num [diffVec, exC2, applyPbcOpt, applyPbc, applyPbcAxis,
    applyPbcWhereHigh, applyPbcWhereLow, matDiag, vsub, Matrix.cons_val_two,
    Matrix.head_cons, Matrix.cons_val_three, Matrix.tail_cons]

theorem exC2_dist12 : distNorm (fun q => q) exC2 1 2 = 49 := by
  norm_num [distNorm, distSq, exC2_diff12, normSq]

theorem exC2_dist13 : distNorm (fun q => q) exC2 1 3 = 9 := by
  norm_num [distNorm, distSq, exC2_diff13, normSq]

theorem exC2_dist23 : distNorm (fun q => q) exC2 2 3 = 16 := by
  norm_num [distNorm, distSq, exC2_diff23, normSq]

theorem exC2_pair12 : angularPairTerm (fun q => q) exC2 exTermC2 0 1 2 = 49 := by
  unfold angularPairTerm
  rw [exTermC2_kernel_apply]
  exact exC2_dist12

theorem exC2_pair13 : angularPairTerm (fun q => q) exC2 exTermC2 0 1 3 = 9 := by
  unfold angularPairTerm
  rw [exTermC2_kernel_apply]
  exact exC2_dist13

theorem exC2_pair23 : angularPairTerm (fun q => q) exC2 exTermC2 0 2 3 = 16 := by
  unfold angularPairTerm
  rw [exTermC2_kernel_apply]
  exact exC2_dist23

theorem exC2_torchip_total :
    torchipAngularSumTerm (fun q => q) exC2 exTermC2 0
      (neighborIndices (fun q => q) exC2 20 0) = 74 := by
  rw [torchip_angular_as_pairs (fun q => q) exC2 exTermC2 0 20 rfl
    (le_of_eq rfl), exC2_maskList]
  have hf1 : ([1, 2, 3] : List (Fin 4)).filter
      (fun k => decide ((1 : Fin 4) < k)) = [2, 3] := by decide
  have hf2 : ([1, 2, 3] : List (Fin 4)).filter
      (fun k => decide ((2 : Fin 4) < k)) = [3] := by decide
  have hf3 : ([1, 2, 3] : List (Fin 4)).filter
      (fun k => decide ((3 : Fin 4) < k)) = [] := by decide
  simp only [List.map_cons, List.map_nil, hf1, hf2, hf3, exC2_pair12,
    exC2_pair13, exC2_pair23, List.sum_cons, List.sum_nil]
  norm_num

/-- **C2 (counterexample).** The claim's equality fails on the code as
soon as an atom lies outside the box: on `exC2` (equal neighbor
elements, three matching-type neighbors within the cutoff) the torch
`k > j` accumulation yields 74 while the jax all-ordered-pairs
accumulation halved yields 34 — the two implementations compute
different `rjk` values for out-of-box atoms (`pbc(x_j - x_k)` versus
`pbc(Rij - Rik)`). -/
theorem C2_counterexample :
    exTermC2.elemJ = exTermC2.elemK ∧
    (angularMaskList (fun q => q) exC2 exTermC2 0).length = 3 ∧
    torchipAngularSumTerm (fun q => q) exC2 exTermC2 0
      (neighborIndices (fun q => q) exC2 20 0) = 74 ∧
    mlpotAngularSumTerm (fun q => q) exC2 exTermC2 0 = 34 ∧
    torchipAngularSumTerm (fun q => q) exC2 exTermC2 0
        (neighborIndices (fun q => q) exC2 20 0)
      ≠ mlpotAngularSumTerm (fun q => q) exC2 exTermC2 0 := by
  refine ⟨rfl, ?_, exC2_torchip_total, exC2_mlpot_total, ?_⟩
  · rw [exC2_maskList]
    rfl
  · rw [exC2_torchip_total, exC2_mlpot_total]
    norm_num
